import Mathlib

/-!
# Verification of the noiceControll noise monitor core

Shallow embedding of the alerting core of the `noiceControll` repository
(`noise_monitor.py` and `noise_monitor_gui.py`) together with proofs about
the spike-filtered alert decision, the cooldown behaviour, the Normal/High
state machine, the level analyzer's handling of silent chunks, temporary-file
cleanup, and the periodic tick's in-flight rule.

Conventions of the embedding:
* Python floats appearing in exact comparisons are modelled as `ℚ`.
* The transcendental conversion `20 * log10(rms) + 90` performed on a sub-chunk
  RMS value is abstracted as an arbitrary function `dbFn : ℚ → ℚ` wherever only
  the structure of the computation (which chunks contribute where) matters; the
  real conversion is injective and monotone on positive arguments, and none of
  the statements below depend on more than that.
* `CHUNK_DURATION * 1000` in the GUI evaluates to exactly the float `100.0`
  (the rounding of `0.1 * 1000` lands on `100.0`), and `int(x)` truncates, so
  `int(spike_duration_ms / (CHUNK_DURATION * 1000))` is exactly natural-number
  division by `100` for every realistic duration value.
-/

namespace NoiseMonitor

/-! ## GUI alert decision (`noise_monitor_gui.py`, `NoiseMonitorWindow.record_audio`)

```python
spike_duration_ms = self.settings_manager.get("spike_duration_ms", DEFAULT_SPIKE_DURATION, type=int)
required_chunks = int(spike_duration_ms / (CHUNK_DURATION * 1000))
high_chunks = sum(1 for db in db_levels if db > threshold)
should_alert = high_chunks >= required_chunks
```
with the `else` branch `should_alert = max_db > threshold` when the spike
filter is disabled. -/

/-- `required_chunks = int(spike_duration_ms / (CHUNK_DURATION * 1000))`.
`CHUNK_DURATION = 0.1`, and `0.1 * 1000` rounds to exactly `100.0`, so this is
truncating division by 100. -/
def required_chunks (spike_duration_ms : ℕ) : ℕ :=
  spike_duration_ms / 100

/-- `high_chunks = sum(1 for db in db_levels if db > threshold)`. -/
def high_chunks (threshold : ℚ) (db_levels : List ℚ) : ℕ :=
  (db_levels.filter (fun db => threshold < db)).length

/-- `np.max` over a list, `none` when empty (the code only takes it under a
nonemptiness guard `if db_levels:`). -/
def listMaxQ : List ℚ → Option ℚ
  | [] => none
  | x :: xs =>
    some (match listMaxQ xs with
      | none => x
      | some m => max x m)

/-- `np.min` over a list, `none` when empty. -/
def listMinQ : List ℚ → Option ℚ
  | [] => none
  | x :: xs =>
    some (match listMinQ xs with
      | none => x
      | some m => min x m)

/-- The GUI alert decision over one block's `db_levels`:
spike filter enabled: `high_chunks >= required_chunks`;
disabled: `max_db > threshold` (with `max_db = np.max(db_levels)`). -/
def should_alert (filterOn : Bool) (spike_duration_ms : ℕ) (threshold : ℚ)
    (db_levels : List ℚ) : Bool :=
  if filterOn then
    decide (required_chunks spike_duration_ms ≤ high_chunks threshold db_levels)
  else
    match listMaxQ db_levels with
    | some m => decide (threshold < m)
    | none => false

/-- C1: with the spike filter enabled, the GUI alert decision is true iff the
number of sub-chunks whose dB SPL strictly exceeds the threshold is at least
`required_chunks` (in the GUI, `np.array_split` tiles the ten-second block into
exactly 100 full sub-chunks, so every counted sub-chunk is non-partial); in
particular for `required_chunks = 3` (e.g. a 300 ms spike duration) a window
with exactly two above-threshold sub-chunks decides false and a window with
exactly three decides true. -/
theorem c1_sustained_decide :
    (∀ (spike_duration_ms : ℕ) (threshold : ℚ) (db_levels : List ℚ),
      should_alert true spike_duration_ms threshold db_levels = true ↔
        required_chunks spike_duration_ms ≤
          db_levels.countP (fun db => decide (threshold < db)))
    ∧ required_chunks 300 = 3
    ∧ should_alert true 300 30 [20, 35, 36, 20, 20, 20, 20, 20, 20, 20] = false
    ∧ should_alert true 300 30 [20, 35, 36, 34, 20, 20, 20, 20, 20, 20] = true := by
  refine ⟨?_, by decide, by decide, by decide⟩
  intro ms th ls
  simp [should_alert, high_chunks, List.countP_eq_length_filter]

/-- C4 counterexample: the code's required-chunk count is a truncating
(floor) division, not a ceiling: at `spike_duration_ms = 150` the code yields
`int(150 / 100.0) = 1` while `ceil(150 / 100) = 2`; moreover at
`spike_duration_ms = 50` the code yields `0`, below the claimed minimum of 1.
Hence the claim `required = ceil(minSpike / subChunk) ≥ 1` is false. -/
theorem c4_counterexample :
    ¬ (∀ m : ℕ, 0 < m →
        required_chunks m = (m + 99) / 100 ∧ 1 ≤ required_chunks m) := by
  intro h
  have h150 := (h 150 (by norm_num)).1
  simp [required_chunks] at h150

/-- C4 amended: the code computes `floor(spike_duration_ms / 100)` (truncating
division), with no minimum-of-1 clamp.  On the settings dialog's grid of
multiples of 100 ms the floor and the ceiling coincide and the count is at
least 1; for durations below 100 ms the count is 0; and in general the value
is characterised as the floor of the quotient. -/
theorem c4_amended :
    (∀ m : ℕ, 100 ∣ m → 0 < m →
        required_chunks m = (m + 99) / 100 ∧ 1 ≤ required_chunks m)
    ∧ (∀ m : ℕ, m < 100 → required_chunks m = 0)
    ∧ (∀ m : ℕ, required_chunks m * 100 ≤ m ∧ m < (required_chunks m + 1) * 100) := by
  refine ⟨?_, ?_, ?_⟩
  · rintro m ⟨k, rfl⟩ hpos
    constructor
    · simp [required_chunks]
      omega
    · simp [required_chunks]
      omega
  · intro m hm
    simp [required_chunks]
    omega
  · intro m
    constructor
    · simp [required_chunks]
      omega
    · simp [required_chunks]
      omega

/-- Witness for `c4_amended` at the default spike duration 500 ms. -/
theorem c4_amended_witness :
    required_chunks 500 = (500 + 99) / 100 ∧ 1 ≤ required_chunks 500 :=
  (c4_amended.1 500 (by norm_num) (by norm_num))

/-! ## GUI cooldown (`noise_monitor_gui.py`, `record_audio` tail)

```python
if should_alert and (current_time - self.last_alert_time) >= ALERT_COOLDOWN:
    self.send_alert(avg_db, max_db, min_db, recording)
    self.last_alert_time = current_time
```
`send_alert` catches every exception internally, so the `last_alert_time`
update always executes together with the dispatch; an emitted alert and the
recorded last-alert time coincide. -/

/-- `ALERT_COOLDOWN = 600  # 10 minutes in seconds`. -/
def ALERT_COOLDOWN : ℚ := 600

/-- One processed block handed to the GUI cooldown check: the block's
sub-chunk dB SPL levels and the value of `time.time()` at the check. -/
structure GuiIn where
  db_levels : List ℚ
  now : ℚ
deriving DecidableEq, Repr

/-- One pass through the alert tail of `record_audio`: returns the new
`last_alert_time` and the list of alert timestamps emitted (empty or a
singleton). -/
def record_audio_alert (filterOn : Bool) (spike_duration_ms : ℕ) (threshold : ℚ)
    (last_alert_time : ℚ) (inp : GuiIn) : ℚ × List ℚ :=
  if should_alert filterOn spike_duration_ms threshold inp.db_levels = true
      ∧ ALERT_COOLDOWN ≤ inp.now - last_alert_time then
    (inp.now, [inp.now])
  else
    (last_alert_time, [])

/-- The sequence of alert timestamps emitted over a run of consecutive
blocks, starting from a given `last_alert_time` (the constructor initialises
it to `0`). -/
def record_audio_run (filterOn : Bool) (spike_duration_ms : ℕ) (threshold : ℚ) :
    ℚ → List GuiIn → List ℚ
  | _, [] => []
  | last, i :: is =>
    let s := record_audio_alert filterOn spike_duration_ms threshold last i
    s.2 ++ record_audio_run filterOn spike_duration_ms threshold s.1 is

theorem record_audio_run_lb (filterOn : Bool) (spike_duration_ms : ℕ)
    (threshold : ℚ) :
    ∀ (inputs : List GuiIn) (last a : ℚ),
      a ∈ record_audio_run filterOn spike_duration_ms threshold last inputs →
      last + ALERT_COOLDOWN ≤ a := by
  intro inputs
  induction inputs with
  | nil => intro last a ha; simp [record_audio_run] at ha
  | cons i is ih =>
    intro last a ha
    rw [record_audio_run] at ha
    by_cases hc : should_alert filterOn spike_duration_ms threshold i.db_levels = true
        ∧ ALERT_COOLDOWN ≤ i.now - last
    · rw [record_audio_alert, if_pos hc] at ha
      simp only [List.cons_append, List.nil_append, List.mem_cons] at ha
      rcases ha with rfl | ha
      · linarith [hc.2]
      · have h2 := ih i.now a ha
        have hle : last + ALERT_COOLDOWN ≤ i.now := by linarith [hc.2]
        have hcd : (0 : ℚ) ≤ ALERT_COOLDOWN := by norm_num [ALERT_COOLDOWN]
        linarith
    · rw [record_audio_alert, if_neg hc] at ha
      simp only [List.nil_append] at ha
      exact ih last a ha

/-- Over every run of the GUI monitor the emitted alert timestamps are
pairwise at least one cooldown apart. -/
theorem record_audio_run_pairwise (filterOn : Bool) (spike_duration_ms : ℕ)
    (threshold : ℚ) :
    ∀ (inputs : List GuiIn) (last : ℚ),
      List.Pairwise (fun a b => a + ALERT_COOLDOWN ≤ b)
        (record_audio_run filterOn spike_duration_ms threshold last inputs) := by
  intro inputs
  induction inputs with
  | nil => intro last; simp [record_audio_run]
  | cons i is ih =>
    intro last
    rw [record_audio_run]
    by_cases hc : should_alert filterOn spike_duration_ms threshold i.db_levels
          = true
        ∧ ALERT_COOLDOWN ≤ i.now - last
    · rw [record_audio_alert, if_pos hc]
      simp only [List.cons_append, List.nil_append, List.pairwise_cons]
      exact ⟨fun a ha =>
          record_audio_run_lb filterOn spike_duration_ms threshold is i.now a ha,
        ih i.now⟩
    · rw [record_audio_alert, if_neg hc]
      simpa using ih last

/-! ## CLI state machine (`noise_monitor.py`, `monitor_usb_mic`)

```python
if db_spl > threshold_db and (current_time - last_alert_time) >= alert_interval:
    if noise_state == NOISE_NORMAL:
        try:
            ... record ... sf.write ...
            send_telegram_alert(message, audio_file_path)
            last_alert_time = current_time
            noise_state = NOISE_HIGH
        except Exception as e:
            ...
            continue
elif db_spl <= threshold_db and noise_state == NOISE_HIGH:
    message = format_telegram_message(db_spl, threshold_db, None, False)
    send_telegram_alert(message)
    noise_state = NOISE_NORMAL
```
The trigger branch's dispatch may end four ways, distinguished by whether the
alert text message was delivered and whether the state assignment at the end
of the `try` block was reached:
* `ok` — everything succeeded: message delivered, state committed;
* `httpFail` — `requests.post` returned non-2xx (no exception): message not
  delivered, but the function returns normally, so the state is committed;
* `raiseBefore` — an exception before the text message was delivered
  (recording, `sf.write`, or a network error on the first post): nothing
  delivered, state not committed (`continue`);
* `raiseAfter` — the text message was delivered (HTTP 200) but a later step
  of `send_telegram_alert` raised (`sf.read`/`sf.write` transcoding, `open`,
  or the audio post): message delivered, state not committed.
The recovery branch's `send_telegram_alert(message)` is not wrapped in the
inner `try`; if it raises, the exception propagates past the
`except KeyboardInterrupt` handler and the loop terminates (`halted`). -/

/-- `NOISE_NORMAL = 0`, `NOISE_HIGH = 1`. -/
inductive NState
  | normal
  | high
deriving DecidableEq, Repr

/-- Outcome of the trigger-branch recording + dispatch (see section comment). -/
inductive TrigOutcome
  | ok
  | httpFail
  | raiseBefore
  | raiseAfter
deriving DecidableEq, Repr

/-- A Telegram message actually delivered to the endpoint. -/
inductive Msg
  | triggered
  | recovered
deriving DecidableEq, Repr

/-- The CLI monitor's mutable state: `noise_state` and `last_alert_time`. -/
structure CliState where
  noise_state : NState
  last_alert_time : ℚ
deriving DecidableEq, Repr

/-- One monitoring cycle's input: the calibrated reading `db_spl`, the clock
value `current_time`, and how the dispatches behave this cycle. -/
structure CliIn where
  db_spl : ℚ
  now : ℚ
  trig : TrigOutcome
  recvRaises : Bool
deriving DecidableEq, Repr

/-- One iteration of the `monitor_usb_mic` loop body (alerting part).
Returns the new state, the messages delivered, and whether the loop was
terminated by an uncaught exception in the recovery branch. -/
def monitor_step (threshold alert_interval : ℚ) (s : CliState) (i : CliIn) :
    CliState × List Msg × Bool :=
  if threshold < i.db_spl ∧ alert_interval ≤ i.now - s.last_alert_time then
    if s.noise_state = NState.normal then
      match i.trig with
      | TrigOutcome.ok => (⟨NState.high, i.now⟩, [Msg.triggered], false)
      | TrigOutcome.httpFail => (⟨NState.high, i.now⟩, [], false)
      | TrigOutcome.raiseBefore => (s, [], false)
      | TrigOutcome.raiseAfter => (s, [Msg.triggered], false)
    else
      (s, [], false)
  else if i.db_spl ≤ threshold ∧ s.noise_state = NState.high then
    if i.recvRaises then (s, [], true)
    else (⟨NState.normal, s.last_alert_time⟩, [Msg.recovered], false)
  else
    (s, [], false)

/-- The sequence of messages delivered over a run of the CLI loop; the run
stops early when a cycle halts the loop. -/
def monitor_run (threshold alert_interval : ℚ) : CliState → List CliIn → List Msg
  | _, [] => []
  | s, i :: is =>
    if (monitor_step threshold alert_interval s i).2.2 then
      (monitor_step threshold alert_interval s i).2.1
    else
      (monitor_step threshold alert_interval s i).2.1 ++
        monitor_run threshold alert_interval
          (monitor_step threshold alert_interval s i).1 is

theorem monitor_run_cons_no_halt {threshold alert_interval : ℚ} {s s2 : CliState}
    {i : CliIn} {is : List CliIn} {msgs : List Msg}
    (hstep : monitor_step threshold alert_interval s i = (s2, msgs, false)) :
    monitor_run threshold alert_interval s (i :: is)
      = msgs ++ monitor_run threshold alert_interval s2 is := by
  rw [monitor_run, hstep]
  simp

theorem monitor_run_cons_halt {threshold alert_interval : ℚ} {s s2 : CliState}
    {i : CliIn} {is : List CliIn} {msgs : List Msg}
    (hstep : monitor_step threshold alert_interval s i = (s2, msgs, true)) :
    monitor_run threshold alert_interval s (i :: is) = msgs := by
  rw [monitor_run, hstep]
  simp

/-- C3: in state `High`, a single block whose current aggregate reading is at
or below the threshold immediately transitions the machine to `Normal` and
delivers exactly one `Recovered` message (provided the recovery dispatch does
not raise), using only the current single reading — even when that same
block's sustained-spike test (`should_alert` with the filter enabled) would
still count it as an event, and regardless of the trigger-branch outcome
parameter, which is never consulted. -/
theorem c3_recovery_uses_current_reading :
    ∀ (threshold alert_interval lastT db_spl now : ℚ) (trig : TrigOutcome)
      (spike_duration_ms : ℕ) (db_levels : List ℚ),
      should_alert true spike_duration_ms threshold db_levels = true →
      db_spl ≤ threshold →
      monitor_step threshold alert_interval ⟨NState.high, lastT⟩
          ⟨db_spl, now, trig, false⟩
        = (⟨NState.normal, lastT⟩, [Msg.recovered], false) := by
  intro th cd lastT db now trig ms ls _hspike hle
  rw [monitor_step]
  rw [if_neg (by simp only [not_and]; intro h; exact absurd hle (not_le.mpr h))]
  rw [if_pos ⟨hle, rfl⟩]
  rfl

/-- Witness for `c3_recovery_uses_current_reading`: threshold 30 dB SPL, a
block whose three sub-chunks all read 100 dB SPL (so the 300 ms sustained test
still fires) but whose current reading is 20 dB SPL. -/
theorem c3_recovery_witness :
    monitor_step 30 600 ⟨NState.high, 0⟩ ⟨20, 1000, TrigOutcome.ok, false⟩
      = (⟨NState.normal, 0⟩, [Msg.recovered], false) :=
  c3_recovery_uses_current_reading 30 600 0 20 1000 TrigOutcome.ok 300
    [100, 100, 100] (by decide) (by norm_num)

/-- C7 counterexample: with threshold 30 and cooldown 600, a 100 dB SPL block
at time 1000 in state `Normal`: if the dispatch raises (network error on the
first post), the state is left at `⟨Normal, 0⟩`, whereas a successful dispatch
leaves `⟨High, 1000⟩` — so a dispatch failure does *not* leave `AlertState`
exactly as a successful dispatch would, and the transition is not committed
before dispatch is attempted. -/
theorem c7_counterexample :
    (monitor_step 30 600 ⟨NState.normal, 0⟩
        ⟨100, 1000, TrigOutcome.raiseBefore, false⟩).1 = ⟨NState.normal, 0⟩
    ∧ (monitor_step 30 600 ⟨NState.normal, 0⟩
        ⟨100, 1000, TrigOutcome.ok, false⟩).1 = ⟨NState.high, 1000⟩
    ∧ (⟨NState.normal, 0⟩ : CliState) ≠ ⟨NState.high, 1000⟩ := by
  refine ⟨?_, ?_, by decide⟩ <;>
    norm_num [monitor_step]

/-- C7 amended: the state transition is committed *after* the dispatch call
returns, not before.  A non-2xx HTTP response (which `requests.post` does not
raise on) leaves `AlertState` exactly as a successful dispatch would, but a
raised exception — whether before or after the alert text is delivered —
aborts the cycle before the commit, leaving the state unchanged (so a raising
dispatch causes a missed transition, and the undissipated cooldown permits a
duplicate trigger attempt on a later block). -/
theorem c7_amended :
    ∀ (threshold alert_interval : ℚ) (s : CliState) (i : CliIn),
      s.noise_state = NState.normal →
      threshold < i.db_spl →
      alert_interval ≤ i.now - s.last_alert_time →
      (monitor_step threshold alert_interval s
          ⟨i.db_spl, i.now, TrigOutcome.httpFail, i.recvRaises⟩).1
        = (monitor_step threshold alert_interval s
          ⟨i.db_spl, i.now, TrigOutcome.ok, i.recvRaises⟩).1
      ∧ (monitor_step threshold alert_interval s
          ⟨i.db_spl, i.now, TrigOutcome.ok, i.recvRaises⟩).1
        = ⟨NState.high, i.now⟩
      ∧ (monitor_step threshold alert_interval s
          ⟨i.db_spl, i.now, TrigOutcome.raiseBefore, i.recvRaises⟩).1 = s
      ∧ (monitor_step threshold alert_interval s
          ⟨i.db_spl, i.now, TrigOutcome.raiseAfter, i.recvRaises⟩).1 = s := by
  intro th cd s i hn hdb hcd
  rw [monitor_step, monitor_step, monitor_step, monitor_step]
  simp only [if_pos (And.intro hdb hcd), if_pos hn]
  simp

/-- `l` never delivers two `Triggered` messages without a `Recovered` message
strictly between them. -/
def Sep (l : List Msg) : Prop :=
  ∀ i j : ℕ, i < j → l[i]? = some Msg.triggered → l[j]? = some Msg.triggered →
    ∃ k, i < k ∧ k < j ∧ l[k]? = some Msg.recovered

/-- There is a `Triggered` message not yet followed by a `Recovered` one;
since the alphabet has just the two messages, this is "the last message is
`Triggered`". -/
def openT (l : List Msg) : Bool :=
  l.foldl
    (fun _ m =>
      match m with
      | Msg.triggered => true
      | Msg.recovered => false)
    false

theorem sep_nil : Sep [] := by
  intro i j _ hi _
  simp at hi

theorem openT_false_elim (l : List Msg) (h : openT l = false) :
    ∀ i : ℕ, l[i]? = some Msg.triggered →
      ∃ k, i < k ∧ l[k]? = some Msg.recovered := by
  induction l using List.reverseRecOn with
  | nil => intro i hi; simp at hi
  | append_singleton l m ih =>
    cases m with
    | triggered => simp [openT, List.foldl_append] at h
    | recovered =>
      intro i hi
      have hlen : i < l.length := by
        by_contra hge
        push_neg at hge
        rw [List.getElem?_append_right hge] at hi
        rcases Nat.lt_or_ge (i - l.length) 1 with h1 | h1
        · interval_cases h2 : i - l.length
          · simp at hi
        · rw [List.getElem?_eq_none (by simpa using h1)] at hi
          cases hi
      refine ⟨l.length, hlen, ?_⟩
      rw [List.getElem?_append_right (le_refl _)]
      simp

theorem sep_append_T (l : List Msg) (hs : Sep l) (ho : openT l = false) :
    Sep (l ++ [Msg.triggered]) := by
  intro i j hij hi hj
  by_cases hjl : j < l.length
  · have hil : i < l.length := lt_trans hij hjl
    rw [List.getElem?_append_left hil] at hi
    rw [List.getElem?_append_left hjl] at hj
    obtain ⟨k, h1, h2, h3⟩ := hs i j hij hi hj
    exact ⟨k, h1, h2, by rw [List.getElem?_append_left (h2.trans hjl)]; exact h3⟩
  · push_neg at hjl
    have hil : i < l.length := by
      by_contra hge
      push_neg at hge
      rw [List.getElem?_append_right hge] at hi
      rcases Nat.lt_or_ge (i - l.length) 1 with h1 | h1
      · have hieq : i = l.length := by omega
        have hjgt : 1 ≤ j - l.length := by omega
        rw [List.getElem?_append_right hjl,
          List.getElem?_eq_none (by simpa using hjgt)] at hj
        cases hj
      · rw [List.getElem?_eq_none (by simpa using h1)] at hi
        cases hi
    rw [List.getElem?_append_left hil] at hi
    obtain ⟨k, hik, hkR⟩ := openT_false_elim l ho i hi
    have hkl : k < l.length := by
      by_contra hge
      push_neg at hge
      rw [List.getElem?_eq_none hge] at hkR
      cases hkR
    exact ⟨k, hik, by omega, by rw [List.getElem?_append_left hkl]; exact hkR⟩

theorem sep_append_R (l : List Msg) (hs : Sep l) : Sep (l ++ [Msg.recovered]) := by
  intro i j hij hi hj
  have hjl : j < l.length := by
    by_contra hge
    push_neg at hge
    rw [List.getElem?_append_right hge] at hj
    rcases Nat.lt_or_ge (j - l.length) 1 with h1 | h1
    · interval_cases h2 : j - l.length
      · simp at hj
    · rw [List.getElem?_eq_none (by simpa using h1)] at hj
      cases hj
  have hil : i < l.length := lt_trans hij hjl
  rw [List.getElem?_append_left hil] at hi
  rw [List.getElem?_append_left hjl] at hj
  obtain ⟨k, h1, h2, h3⟩ := hs i j hij hi hj
  exact ⟨k, h1, h2, by rw [List.getElem?_append_left (h2.trans hjl)]; exact h3⟩

theorem openT_append_R (l : List Msg) :
    openT (l ++ [Msg.recovered]) = false := by
  simp [openT, List.foldl_append]

/-- Invariant of the CLI loop: provided no cycle raises *after* its alert text
message was delivered, the delivered messages never contain two `Triggered`
without a `Recovered` strictly between them. -/
theorem monitor_run_sep (threshold alert_interval : ℚ) :
    ∀ (trace : List CliIn) (s : CliState) (acc : List Msg),
      (∀ i ∈ trace, i.trig ≠ TrigOutcome.raiseAfter) →
      Sep acc →
      (s.noise_state = NState.normal → openT acc = false) →
      Sep (acc ++ monitor_run threshold alert_interval s trace) := by
  intro trace
  induction trace with
  | nil =>
    intro s acc _ hsep _
    simpa [monitor_run] using hsep
  | cons i is ih =>
    intro s acc hna hsep hopen
    have hna2 : ∀ j ∈ is, j.trig ≠ TrigOutcome.raiseAfter :=
      fun j hj => hna j (List.mem_cons_of_mem _ hj)
    by_cases h1 : threshold < i.db_spl ∧ alert_interval ≤ i.now - s.last_alert_time
    · by_cases h2 : s.noise_state = NState.normal
      · cases htr : i.trig with
        | ok =>
          have hstep : monitor_step threshold alert_interval s i
              = (⟨NState.high, i.now⟩, [Msg.triggered], false) := by
            rw [monitor_step, if_pos h1, if_pos h2, htr]
          rw [monitor_run_cons_no_halt hstep, ← List.append_assoc]
          exact ih ⟨NState.high, i.now⟩ (acc ++ [Msg.triggered]) hna2
            (sep_append_T acc hsep (hopen h2)) (by intro hc; cases hc)
        | httpFail =>
          have hstep : monitor_step threshold alert_interval s i
              = (⟨NState.high, i.now⟩, [], false) := by
            rw [monitor_step, if_pos h1, if_pos h2, htr]
          rw [monitor_run_cons_no_halt hstep, List.nil_append]
          exact ih ⟨NState.high, i.now⟩ acc hna2 hsep (by intro hc; cases hc)
        | raiseBefore =>
          have hstep : monitor_step threshold alert_interval s i
              = (s, [], false) := by
            rw [monitor_step, if_pos h1, if_pos h2, htr]
          rw [monitor_run_cons_no_halt hstep, List.nil_append]
          exact ih s acc hna2 hsep hopen
        | raiseAfter =>
          exact absurd htr (hna i (List.mem_cons_self _ _))
      · have hstep : monitor_step threshold alert_interval s i
            = (s, [], false) := by
          rw [monitor_step, if_pos h1, if_neg h2]
        rw [monitor_run_cons_no_halt hstep, List.nil_append]
        exact ih s acc hna2 hsep hopen
    · by_cases h3 : i.db_spl ≤ threshold ∧ s.noise_state = NState.high
      · cases hr : i.recvRaises with
        | true =>
          have hstep : monitor_step threshold alert_interval s i
              = (s, [], true) := by
            rw [monitor_step, if_neg h1, if_pos h3, hr]
            simp
          rw [monitor_run_cons_halt hstep, List.append_nil]
          exact hsep
        | false =>
          have hstep : monitor_step threshold alert_interval s i
              = (⟨NState.normal, s.last_alert_time⟩, [Msg.recovered], false) := by
            rw [monitor_step, if_neg h1, if_pos h3, hr]
            simp
          rw [monitor_run_cons_no_halt hstep, ← List.append_assoc]
          exact ih ⟨NState.normal, s.last_alert_time⟩ (acc ++ [Msg.recovered]) hna2
            (sep_append_R acc hsep) (fun _ => openT_append_R acc)
      · have hstep : monitor_step threshold alert_interval s i
            = (s, [], false) := by
          rw [monitor_step, if_neg h1, if_neg h3]
        rw [monitor_run_cons_no_halt hstep, List.nil_append]
        exact ih s acc hna2 hsep hopen

/-- The timestamps (`current_time` values) of the cycles whose trigger-branch
dispatch delivers a `Triggered` message, over a run of the CLI loop; stops
early when a cycle halts the loop. -/
def monitor_trigger_times (threshold alert_interval : ℚ) :
    CliState → List CliIn → List ℚ
  | _, [] => []
  | s, i :: is =>
    (if Msg.triggered ∈ (monitor_step threshold alert_interval s i).2.1 then
      [i.now] else [])
    ++ (if (monitor_step threshold alert_interval s i).2.2 then []
        else monitor_trigger_times threshold alert_interval
          (monitor_step threshold alert_interval s i).1 is)

theorem monitor_trigger_times_cons_no_halt {threshold alert_interval : ℚ}
    {s s2 : CliState} {i : CliIn} {is : List CliIn} {msgs : List Msg}
    (hstep : monitor_step threshold alert_interval s i = (s2, msgs, false)) :
    monitor_trigger_times threshold alert_interval s (i :: is)
      = (if Msg.triggered ∈ msgs then [i.now] else [])
        ++ monitor_trigger_times threshold alert_interval s2 is := by
  rw [monitor_trigger_times, hstep]
  simp

theorem monitor_trigger_times_cons_halt {threshold alert_interval : ℚ}
    {s s2 : CliState} {i : CliIn} {is : List CliIn} {msgs : List Msg}
    (hstep : monitor_step threshold alert_interval s i = (s2, msgs, true)) :
    monitor_trigger_times threshold alert_interval s (i :: is)
      = (if Msg.triggered ∈ msgs then [i.now] else []) := by
  rw [monitor_trigger_times, hstep]
  simp

/-- Every delivered `Triggered` timestamp lies at least one cooldown after
the starting state's `last_alert_time`, provided no cycle raises after its
alert text was delivered. -/
theorem monitor_trigger_times_lb (threshold alert_interval : ℚ)
    (hcd : 0 ≤ alert_interval) :
    ∀ (trace : List CliIn) (s : CliState),
      (∀ i ∈ trace, i.trig ≠ TrigOutcome.raiseAfter) →
      ∀ a ∈ monitor_trigger_times threshold alert_interval s trace,
        s.last_alert_time + alert_interval ≤ a := by
  intro trace
  induction trace with
  | nil =>
    intro s _ a ha
    simp [monitor_trigger_times] at ha
  | cons i is ih =>
    intro s hna a ha
    have hna2 : ∀ j ∈ is, j.trig ≠ TrigOutcome.raiseAfter :=
      fun j hj => hna j (List.mem_cons_of_mem _ hj)
    by_cases h1 : threshold < i.db_spl
        ∧ alert_interval ≤ i.now - s.last_alert_time
    · by_cases h2 : s.noise_state = NState.normal
      · cases htr : i.trig with
        | ok =>
          have hstep : monitor_step threshold alert_interval s i
              = (⟨NState.high, i.now⟩, [Msg.triggered], false) := by
            rw [monitor_step, if_pos h1, if_pos h2, htr]
          rw [monitor_trigger_times_cons_no_halt hstep,
            if_pos (List.mem_singleton_self _)] at ha
          rcases List.mem_cons.mp ha with rfl | ha2
          · linarith [h1.2]
          · have h3 := ih ⟨NState.high, i.now⟩ hna2 a ha2
            have h4 : s.last_alert_time + alert_interval ≤ i.now := by
              linarith [h1.2]
            simp only at h3
            linarith
        | httpFail =>
          have hstep : monitor_step threshold alert_interval s i
              = (⟨NState.high, i.now⟩, [], false) := by
            rw [monitor_step, if_pos h1, if_pos h2, htr]
          rw [monitor_trigger_times_cons_no_halt hstep,
            if_neg (List.not_mem_nil _), List.nil_append] at ha
          have h3 := ih ⟨NState.high, i.now⟩ hna2 a ha
          have h4 : s.last_alert_time + alert_interval ≤ i.now := by
            linarith [h1.2]
          simp only at h3
          linarith
        | raiseBefore =>
          have hstep : monitor_step threshold alert_interval s i
              = (s, [], false) := by
            rw [monitor_step, if_pos h1, if_pos h2, htr]
          rw [monitor_trigger_times_cons_no_halt hstep,
            if_neg (List.not_mem_nil _), List.nil_append] at ha
          exact ih s hna2 a ha
        | raiseAfter =>
          exact absurd htr (hna i (List.mem_cons_self _ _))
      · have hstep : monitor_step threshold alert_interval s i
            = (s, [], false) := by
          rw [monitor_step, if_pos h1, if_neg h2]
        rw [monitor_trigger_times_cons_no_halt hstep,
          if_neg (List.not_mem_nil _), List.nil_append] at ha
        exact ih s hna2 a ha
    · by_cases h3 : i.db_spl ≤ threshold ∧ s.noise_state = NState.high
      · cases hr : i.recvRaises with
        | true =>
          have hstep : monitor_step threshold alert_interval s i
              = (s, [], true) := by
            rw [monitor_step, if_neg h1, if_pos h3, hr]
            simp
          rw [monitor_trigger_times_cons_halt hstep,
            if_neg (List.not_mem_nil _)] at ha
          simp at ha
        | false =>
          have hstep : monitor_step threshold alert_interval s i
              = (⟨NState.normal, s.last_alert_time⟩, [Msg.recovered], false) := by
            rw [monitor_step, if_neg h1, if_pos h3, hr]
            simp
          rw [monitor_trigger_times_cons_no_halt hstep,
            if_neg (by decide), List.nil_append] at ha
          have h4 := ih ⟨NState.normal, s.last_alert_time⟩ hna2 a ha
          simpa using h4
      · have hstep : monitor_step threshold alert_interval s i
            = (s, [], false) := by
          rw [monitor_step, if_neg h1, if_neg h3]
        rw [monitor_trigger_times_cons_no_halt hstep,
          if_neg (List.not_mem_nil _), List.nil_append] at ha
        exact ih s hna2 a ha

/-- On every CLI run in which no cycle raises after its alert text was
delivered, the delivered `Triggered` timestamps are pairwise at least one
cooldown apart. -/
theorem monitor_trigger_times_pairwise (threshold alert_interval : ℚ)
    (hcd : 0 ≤ alert_interval) :
    ∀ (trace : List CliIn) (s : CliState),
      (∀ i ∈ trace, i.trig ≠ TrigOutcome.raiseAfter) →
      List.Pairwise (fun a b => a + alert_interval ≤ b)
        (monitor_trigger_times threshold alert_interval s trace) := by
  intro trace
  induction trace with
  | nil =>
    intro s _
    simp [monitor_trigger_times]
  | cons i is ih =>
    intro s hna
    have hna2 : ∀ j ∈ is, j.trig ≠ TrigOutcome.raiseAfter :=
      fun j hj => hna j (List.mem_cons_of_mem _ hj)
    by_cases h1 : threshold < i.db_spl
        ∧ alert_interval ≤ i.now - s.last_alert_time
    · by_cases h2 : s.noise_state = NState.normal
      · cases htr : i.trig with
        | ok =>
          have hstep : monitor_step threshold alert_interval s i
              = (⟨NState.high, i.now⟩, [Msg.triggered], false) := by
            rw [monitor_step, if_pos h1, if_pos h2, htr]
          rw [monitor_trigger_times_cons_no_halt hstep,
            if_pos (List.mem_singleton_self _)]
          simp only [List.cons_append, List.nil_append, List.pairwise_cons]
          refine ⟨fun a ha => ?_, ih ⟨NState.high, i.now⟩ hna2⟩
          have h3 := monitor_trigger_times_lb threshold alert_interval hcd is
            ⟨NState.high, i.now⟩ hna2 a ha
          simpa using h3
        | httpFail =>
          have hstep : monitor_step threshold alert_interval s i
              = (⟨NState.high, i.now⟩, [], false) := by
            rw [monitor_step, if_pos h1, if_pos h2, htr]
          rw [monitor_trigger_times_cons_no_halt hstep,
            if_neg (List.not_mem_nil _), List.nil_append]
          exact ih ⟨NState.high, i.now⟩ hna2
        | raiseBefore =>
          have hstep : monitor_step threshold alert_interval s i
              = (s, [], false) := by
            rw [monitor_step, if_pos h1, if_pos h2, htr]
          rw [monitor_trigger_times_cons_no_halt hstep,
            if_neg (List.not_mem_nil _), List.nil_append]
          exact ih s hna2
        | raiseAfter =>
          exact absurd htr (hna i (List.mem_cons_self _ _))
      · have hstep : monitor_step threshold alert_interval s i
            = (s, [], false) := by
          rw [monitor_step, if_pos h1, if_neg h2]
        rw [monitor_trigger_times_cons_no_halt hstep,
          if_neg (List.not_mem_nil _), List.nil_append]
        exact ih s hna2
    · by_cases h3 : i.db_spl ≤ threshold ∧ s.noise_state = NState.high
      · cases hr : i.recvRaises with
        | true =>
          have hstep : monitor_step threshold alert_interval s i
              = (s, [], true) := by
            rw [monitor_step, if_neg h1, if_pos h3, hr]
            simp
          rw [monitor_trigger_times_cons_halt hstep,
            if_neg (List.not_mem_nil _)]
          simp
        | false =>
          have hstep : monitor_step threshold alert_interval s i
              = (⟨NState.normal, s.last_alert_time⟩, [Msg.recovered], false) := by
            rw [monitor_step, if_neg h1, if_pos h3, hr]
            simp
          rw [monitor_trigger_times_cons_no_halt hstep,
            if_neg (by decide), List.nil_append]
          exact ih ⟨NState.normal, s.last_alert_time⟩ hna2
      · have hstep : monitor_step threshold alert_interval s i
            = (s, [], false) := by
          rw [monitor_step, if_neg h1, if_neg h3]
        rw [monitor_trigger_times_cons_no_halt hstep,
          if_neg (List.not_mem_nil _), List.nil_append]
        exact ih s hna2

/-- C2 counterexample, in the CLI monitor the claim cites: (1) a loud block
whose dispatch delivers the alert text and then raises does not commit
`last_alert_time`, so a second loud block only 100 s later — far inside the
600 s cooldown window — delivers a second `Triggered`: two `Triggered` within
one cooldown window; and (2) three consecutive loud all-successful blocks at
t = 1000, 1100, 1700 deliver only one `Triggered`: the third block arrives
700 s ≥ 600 s after the last alert, yet the `High` state blocks the trigger
branch, so no second alert is produced. -/
theorem c2_counterexample :
    monitor_run 30 600 ⟨NState.normal, 0⟩
        [⟨100, 1000, TrigOutcome.raiseAfter, false⟩,
         ⟨100, 1100, TrigOutcome.ok, false⟩]
      = [Msg.triggered, Msg.triggered]
    ∧ (1100 : ℚ) - 1000 < 600
    ∧ monitor_run 30 600 ⟨NState.normal, 0⟩
        [⟨100, 1000, TrigOutcome.ok, false⟩,
         ⟨100, 1100, TrigOutcome.ok, false⟩,
         ⟨100, 1700, TrigOutcome.ok, false⟩]
      = [Msg.triggered]
    ∧ (600 : ℚ) ≤ 1700 - 1000 := by
  refine ⟨?_, by norm_num, ?_, by norm_num⟩
  · norm_num [monitor_run, monitor_step]
  · norm_num [monitor_run, monitor_step]
    rw [if_neg (show NState.high ≠ NState.normal from fun h => by cases h)]

/-- C2 amended: in the GUI monitor the claim holds as stated — alert
timestamps are pairwise at least one cooldown apart (at most one alert per
cooldown window however many blocks satisfy the policy), and two triggering
blocks inside the window followed by a third after it yield exactly the two
alerts `[1000, 1700]`.  In the CLI monitor the cooldown guarantee holds for
every run in which no trigger cycle raises after its alert text is delivered,
and a triggering block after the cooldown produces a second `Triggered` only
once a `Recovered` has returned the state to `Normal`: loud, loud, quiet,
loud delivers exactly the two alerts `[1000, 1700]`. -/
theorem c2_cooldown_amended :
    (∀ (filterOn : Bool) (spike_duration_ms : ℕ) (threshold last : ℚ)
        (inputs : List GuiIn),
      List.Pairwise (fun a b => a + ALERT_COOLDOWN ≤ b)
        (record_audio_run filterOn spike_duration_ms threshold last inputs))
    ∧ record_audio_run true 300 30 0
        [⟨[100, 100, 100], 1000⟩, ⟨[100, 100, 100], 1100⟩,
         ⟨[100, 100, 100], 1700⟩] = [1000, 1700]
    ∧ (∀ (threshold alert_interval : ℚ) (s : CliState) (trace : List CliIn),
        0 ≤ alert_interval →
        (∀ i ∈ trace, i.trig ≠ TrigOutcome.raiseAfter) →
        List.Pairwise (fun a b => a + alert_interval ≤ b)
          (monitor_trigger_times threshold alert_interval s trace))
    ∧ monitor_trigger_times 30 600 ⟨NState.normal, 0⟩
        [⟨100, 1000, TrigOutcome.ok, false⟩,
         ⟨100, 1100, TrigOutcome.ok, false⟩,
         ⟨20, 1200, TrigOutcome.ok, false⟩,
         ⟨100, 1700, TrigOutcome.ok, false⟩]
      = [1000, 1700] := by
  refine ⟨fun fo ms th last inputs =>
      record_audio_run_pairwise fo ms th inputs last, ?_,
    fun th cd s trace hcd hna =>
      monitor_trigger_times_pairwise th cd hcd trace s hna, ?_⟩
  · norm_num [record_audio_run, record_audio_alert, should_alert, high_chunks,
      required_chunks, ALERT_COOLDOWN, List.filter]
  · norm_num [monitor_trigger_times, monitor_step]
    decide

/-- Witness for `c2_cooldown_amended`: the CLI pairwise-spacing half applied
to a concrete two-block trace with the hypotheses discharged. -/
theorem c2_cooldown_amended_witness :
    List.Pairwise (fun a b => a + 600 ≤ b)
      (monitor_trigger_times 30 600 ⟨NState.normal, 0⟩
        [⟨100, 1000, TrigOutcome.ok, false⟩,
         ⟨20, 1200, TrigOutcome.ok, false⟩,
         ⟨100, 1700, TrigOutcome.ok, false⟩]) :=
  c2_cooldown_amended.2.2.1 30 600 ⟨NState.normal, 0⟩
    [⟨100, 1000, TrigOutcome.ok, false⟩,
     ⟨20, 1200, TrigOutcome.ok, false⟩,
     ⟨100, 1700, TrigOutcome.ok, false⟩]
    (by norm_num) (by decide)

/-- C10 counterexample: the run whose first loud block delivers its alert
text and then raises (e.g. the audio upload fails) never commits the
`Normal → High` transition; the next loud block, 1000 s later, triggers again
— so the CLI can deliver two `Triggered` messages with no `Recovered` notice
between them, refuting the claim that every execution separates two
`Triggered` alerts with a `Recovered`. -/
theorem c10_counterexample :
    monitor_run 30 600 ⟨NState.normal, 0⟩
        [⟨100, 1000, TrigOutcome.raiseAfter, false⟩,
         ⟨100, 2000, TrigOutcome.ok, false⟩]
      = [Msg.triggered, Msg.triggered]
    ∧ ¬ Sep [Msg.triggered, Msg.triggered] := by
  constructor
  · norm_num [monitor_run, monitor_step]
  · intro h
    obtain ⟨k, h0, h1, _⟩ := h 0 1 (by norm_num) rfl rfl
    omega

/-- C10 amended: (1) while the state is `High`, no cycle delivers a
`Triggered` message, even when the level exceeds the threshold and the
cooldown has elapsed; and (2) in every execution in which no trigger-branch
dispatch raises *after* the alert text was delivered (the outcome in which
the code sends the message but aborts before committing the transition), any
two delivered `Triggered` messages are separated by a `Recovered` message. -/
theorem c10_high_blocks_trigger :
    (∀ (threshold alert_interval : ℚ) (s : CliState) (i : CliIn),
      s.noise_state = NState.high →
      Msg.triggered ∉ (monitor_step threshold alert_interval s i).2.1)
    ∧ (∀ (threshold alert_interval : ℚ) (trace : List CliIn),
      (∀ i ∈ trace, i.trig ≠ TrigOutcome.raiseAfter) →
      Sep (monitor_run threshold alert_interval ⟨NState.normal, 0⟩ trace)) := by
  constructor
  · intro th cd s i hh
    rw [monitor_step]
    by_cases h1 : th < i.db_spl ∧ cd ≤ i.now - s.last_alert_time
    · rw [if_pos h1, if_neg (by simp [hh])]
      simp
    · rw [if_neg h1]
      by_cases h3 : i.db_spl ≤ th ∧ s.noise_state = NState.high
      · rw [if_pos h3]
        cases hr : i.recvRaises <;> simp
      · rw [if_neg h3]
        simp
  · intro th cd trace hna
    have h := monitor_run_sep th cd trace ⟨NState.normal, 0⟩ [] hna sep_nil
      (fun _ => rfl)
    simpa using h

/-- Witness for `c10_high_blocks_trigger`: a loud block in `High` delivers no
`Triggered`; and the two-block trace (trigger, then recover) satisfies the
separation property. -/
theorem c10_high_blocks_trigger_witness :
    Msg.triggered ∉ (monitor_step 30 600 ⟨NState.high, 0⟩
        ⟨100, 1000, TrigOutcome.ok, false⟩).2.1
    ∧ Sep (monitor_run 30 600 ⟨NState.normal, 0⟩
        [⟨100, 1000, TrigOutcome.ok, false⟩, ⟨20, 1005, TrigOutcome.ok, false⟩]) :=
  ⟨c10_high_blocks_trigger.1 30 600 ⟨NState.high, 0⟩
      ⟨100, 1000, TrigOutcome.ok, false⟩ rfl,
   c10_high_blocks_trigger.2 30 600 _ (by decide)⟩

/-- Witness for `c7_amended` at threshold 30, cooldown 600, state
`⟨Normal, 0⟩`, block `⟨100 dB SPL, t = 1000⟩`. -/
theorem c7_amended_witness :
    (monitor_step 30 600 ⟨NState.normal, 0⟩
        ⟨100, 1000, TrigOutcome.httpFail, false⟩).1
      = (monitor_step 30 600 ⟨NState.normal, 0⟩
        ⟨100, 1000, TrigOutcome.ok, false⟩).1
    ∧ (monitor_step 30 600 ⟨NState.normal, 0⟩
        ⟨100, 1000, TrigOutcome.ok, false⟩).1 = ⟨NState.high, 1000⟩
    ∧ (monitor_step 30 600 ⟨NState.normal, 0⟩
        ⟨100, 1000, TrigOutcome.raiseBefore, false⟩).1 = ⟨NState.normal, 0⟩
    ∧ (monitor_step 30 600 ⟨NState.normal, 0⟩
        ⟨100, 1000, TrigOutcome.raiseAfter, false⟩).1 = ⟨NState.normal, 0⟩ :=
  c7_amended 30 600 ⟨NState.normal, 0⟩ ⟨100, 1000, TrigOutcome.ok, false⟩
    rfl (by norm_num) (by norm_num)

/-! ## GUI level analyzer (`noise_monitor_gui.py`, `record_audio` head)

```python
for chunk in chunks:
    rms = np.sqrt(np.mean(chunk**2))
    if rms > 0:
        db = 20 * np.log10(rms) + 90  # Convert to SPL
        db_levels.append(db)

if db_levels:
    avg_db = np.mean(db_levels)
    max_db = np.max(db_levels)
    min_db = np.min(db_levels)
```
A sub-chunk with `rms == 0` is *skipped*: it contributes to neither
`db_levels` nor any of the three aggregates.  The conversion
`20 * log10(rms) + 90` is abstracted as `dbFn`; the analysis is modelled on
the per-chunk RMS values. -/

/-- The `db_levels` list computed by the loop above: one entry per sub-chunk
with strictly positive RMS. -/
def db_levels_of (dbFn : ℚ → ℚ) (rms_list : List ℚ) : List ℚ :=
  rms_list.filterMap fun r => if 0 < r then some (dbFn r) else none

/-- `avg_db = np.mean(db_levels)`, taken only under the nonemptiness guard. -/
def aggAvg (ls : List ℚ) : Option ℚ :=
  if ls = [] then none else some (ls.sum / ls.length)

/-- The per-chunk dB values as the specification describes them: a silent
chunk (RMS 0) carries the value −∞, modelled as `none`. -/
def spec_levels (dbFn : ℚ → ℚ) (rms_list : List ℚ) : List (Option ℚ) :=
  rms_list.map fun r => if 0 < r then some (dbFn r) else none

/-- The specification's safe-compare minimum: −∞ is lower than anything. -/
def botMin : Option ℚ → Option ℚ → Option ℚ
  | none, _ => none
  | some _, none => none
  | some x, some y => some (min x y)

/-- The specification's safe-compare maximum: −∞ is lower than anything and
is never selected over a finite value. -/
def botMax : Option ℚ → Option ℚ → Option ℚ
  | none, b => b
  | some x, none => some x
  | some x, some y => some (max x y)

/-- Minimum over a window of spec-level values (`none` on the empty window):
the aggregate min as the specification describes it, considering −∞ entries
via the safe-compare. -/
def specFoldMin : List (Option ℚ) → Option (Option ℚ)
  | [] => none
  | x :: xs =>
    some (match specFoldMin xs with
      | none => x
      | some m => botMin x m)

/-- Maximum over a window of spec-level values (`none` on the empty window). -/
def specFoldMax : List (Option ℚ) → Option (Option ℚ)
  | [] => none
  | x :: xs =>
    some (match specFoldMax xs with
      | none => x
      | some m => botMax x m)

/-- Dropping the −∞ entries of a spec-level window. -/
def dropBot : List (Option ℚ) → List ℚ
  | [] => []
  | none :: xs => dropBot xs
  | some x :: xs => x :: dropBot xs

theorem spec_levels_cons (dbFn : ℚ → ℚ) (r : ℚ) (rs : List ℚ) :
    spec_levels dbFn (r :: rs)
      = (if 0 < r then some (dbFn r) else none) :: spec_levels dbFn rs := rfl

theorem specFoldMax_cons (x : Option ℚ) (xs : List (Option ℚ)) :
    specFoldMax (x :: xs)
      = some (match specFoldMax xs with
          | none => x
          | some m => botMax x m) := rfl

theorem listMaxQ_cons (x : ℚ) (xs : List ℚ) :
    listMaxQ (x :: xs)
      = some (match listMaxQ xs with
          | none => x
          | some m => max x m) := rfl

theorem db_levels_of_cons_pos (dbFn : ℚ → ℚ) (r : ℚ) (rs : List ℚ)
    (hr : 0 < r) :
    db_levels_of dbFn (r :: rs) = dbFn r :: db_levels_of dbFn rs := by
  simp [db_levels_of, List.filterMap_cons, if_pos hr]

theorem db_levels_of_cons_neg (dbFn : ℚ → ℚ) (r : ℚ) (rs : List ℚ)
    (hr : ¬ 0 < r) :
    db_levels_of dbFn (r :: rs) = db_levels_of dbFn rs := by
  simp [db_levels_of, List.filterMap_cons, if_neg hr]

theorem listMaxQ_ne_none (ls : List ℚ) (h : ls ≠ []) :
    ∃ M, listMaxQ ls = some M := by
  cases ls with
  | nil => exact absurd rfl h
  | cons a as => exact ⟨_, rfl⟩

theorem dropBot_spec_levels (dbFn : ℚ → ℚ) (l : List ℚ) :
    dropBot (spec_levels dbFn l) = db_levels_of dbFn l := by
  induction l with
  | nil => rfl
  | cons r rs ih =>
    rw [spec_levels_cons]
    by_cases hr : 0 < r
    · rw [if_pos hr, db_levels_of_cons_pos dbFn r rs hr]
      simp only [dropBot]
      rw [ih]
    · rw [if_neg hr, db_levels_of_cons_neg dbFn r rs hr]
      simp only [dropBot]
      exact ih

theorem db_levels_of_eq_nil (dbFn : ℚ → ℚ) (l : List ℚ)
    (h : ∀ r ∈ l, ¬ 0 < r) : db_levels_of dbFn l = [] := by
  induction l with
  | nil => rfl
  | cons r rs ih =>
    rw [db_levels_of_cons_neg dbFn r rs (h r (List.mem_cons_self _ _))]
    exact ih (fun x hx => h x (List.mem_cons_of_mem _ hx))

theorem specFoldMax_all_silent (dbFn : ℚ → ℚ) (l : List ℚ)
    (h : db_levels_of dbFn l = []) :
    specFoldMax (spec_levels dbFn l) = none
      ∨ specFoldMax (spec_levels dbFn l) = some none := by
  induction l with
  | nil => left; rfl
  | cons r rs ih =>
    by_cases hr : 0 < r
    · rw [db_levels_of_cons_pos dbFn r rs hr] at h
      cases h
    · rw [db_levels_of_cons_neg dbFn r rs hr] at h
      right
      rw [spec_levels_cons, if_neg hr, specFoldMax_cons]
      rcases ih h with h2 | h2 <;> (first
        | (rw [h2]; rfl)
        | rw [h2])

theorem specFoldMax_agrees (dbFn : ℚ → ℚ) (l : List ℚ)
    (h : db_levels_of dbFn l ≠ []) :
    specFoldMax (spec_levels dbFn l)
      = Option.map some (listMaxQ (db_levels_of dbFn l)) := by
  induction l with
  | nil => exact absurd rfl h
  | cons r rs ih =>
    by_cases hr : 0 < r
    · rw [spec_levels_cons, if_pos hr, specFoldMax_cons,
        db_levels_of_cons_pos dbFn r rs hr]
      by_cases hrs : db_levels_of dbFn rs = []
      · rcases specFoldMax_all_silent dbFn rs hrs with h2 | h2 <;>
          rw [h2, hrs] <;> rfl
      · obtain ⟨M, hM⟩ := listMaxQ_ne_none _ hrs
        have h2 := ih hrs
        rw [hM] at h2
        rw [h2, listMaxQ_cons, hM]
        rfl
    · rw [spec_levels_cons, if_neg hr, specFoldMax_cons,
        db_levels_of_cons_neg dbFn r rs hr]
      have hrs : db_levels_of dbFn rs ≠ [] := by
        rwa [db_levels_of_cons_neg dbFn r rs hr] at h
      obtain ⟨M, hM⟩ := listMaxQ_ne_none _ hrs
      have h2 := ih hrs
      rw [hM] at h2
      rw [h2, hM]
      rfl

theorem specFoldMin_of_bot_mem (l : List (Option ℚ)) (h : none ∈ l) :
    specFoldMin l = some none := by
  induction l with
  | nil => simp at h
  | cons x xs ih =>
    rcases List.mem_cons.mp h with rfl | hmem
    · cases h2 : specFoldMin xs with
      | none => simp [specFoldMin, h2]
      | some m => simp [specFoldMin, h2, botMin]
    · rw [specFoldMin, ih hmem]
      cases x <;> simp [botMin]

/-- C5 counterexample: for a block with one silent sub-chunk (RMS `0`) and
one non-silent sub-chunk (RMS `1`), the specification's safe-compare minimum
over the spec-level window is −∞ (`some none`), while the code's
`np.min(db_levels)` ranges only over the non-silent chunks and returns the
finite value of the loud chunk (the conversion function is irrelevant to the
disagreement and is instantiated with the identity).  Hence the claim that
the aggregate min "still considers" the −∞ values is false of the code. -/
theorem c5_counterexample :
    ¬ (∀ (dbFn : ℚ → ℚ) (l : List ℚ),
        specFoldMin (spec_levels dbFn l)
          = Option.map some (listMinQ (db_levels_of dbFn l))) := by
  intro h
  have hx := h (fun r => r) [0, 1]
  rw [show spec_levels (fun r => r) [0, 1] = [none, some 1] by norm_num [spec_levels],
    show db_levels_of (fun r => r) [0, 1] = [1] by norm_num [db_levels_of, List.filterMap_cons],
    specFoldMin_of_bot_mem _ (by simp)] at hx
  simp [listMinQ] at hx

/-- C5 amended: a sub-chunk with RMS 0 is skipped entirely by the analyzer —
its −∞ value is excluded from the average *and also from both max and min*
(not only "never selected as max").  Consequently (1) the code's average
agrees with the specification's −∞-excluding average; (2) whenever at least
one non-silent sub-chunk exists, the code's max agrees with the
specification's safe-compare max (a −∞ value is indeed never selected as
max); (3) for an all-silent block `db_levels` is empty, the aggregate is
skipped, and nothing raises or produces NaN; but (4) when a silent and a
non-silent chunk coexist, the specification's safe-compare min is −∞ while
the code's min is a finite value — the corrected reading is that min, too,
ranges only over the non-silent chunks. -/
theorem c5_silent_chunk_handling :
    ∀ (dbFn : ℚ → ℚ) (l : List ℚ),
      aggAvg (dropBot (spec_levels dbFn l)) = aggAvg (db_levels_of dbFn l)
      ∧ (db_levels_of dbFn l ≠ [] →
          specFoldMax (spec_levels dbFn l)
            = Option.map some (listMaxQ (db_levels_of dbFn l)))
      ∧ ((∀ r ∈ l, ¬ 0 < r) → db_levels_of dbFn l = [])
      ∧ ((∃ r ∈ l, ¬ 0 < r) → db_levels_of dbFn l ≠ [] →
          specFoldMin (spec_levels dbFn l) = some none
            ∧ listMinQ (db_levels_of dbFn l) ≠ none) := by
  intro dbFn l
  refine ⟨by rw [dropBot_spec_levels], specFoldMax_agrees dbFn l,
    db_levels_of_eq_nil dbFn l, ?_⟩
  rintro ⟨r, hrl, hr⟩ hne
  constructor
  · refine specFoldMin_of_bot_mem _ ?_
    have : (if 0 < r then some (dbFn r) else none) ∈ spec_levels dbFn l :=
      List.mem_map_of_mem _ hrl
    rwa [if_neg hr] at this
  · cases hd : db_levels_of dbFn l with
    | nil => exact absurd hd hne
    | cons a as => simp [listMinQ]

/-- Witness for `c5_silent_chunk_handling` on the two-chunk block with RMS
values `[0, 1]` (identity conversion): max agreement and the min divergence. -/
theorem c5_silent_chunk_handling_witness :
    specFoldMax (spec_levels (fun r => r) [0, 1])
        = Option.map some (listMaxQ (db_levels_of (fun r => r) [0, 1]))
    ∧ specFoldMin (spec_levels (fun r => r) [0, 1]) = some none := by
  have h := c5_silent_chunk_handling (fun r => r) [0, 1]
  exact ⟨h.2.1 (by norm_num [db_levels_of, List.filterMap_cons]),
    (h.2.2.2 ⟨0, by norm_num, by norm_num⟩
      (by norm_num [db_levels_of, List.filterMap_cons])).1⟩

/-! ## CLI level computation (`noise_monitor.py`, `get_noise_level` /
`amplitude_to_db`)

```python
def amplitude_to_db(amplitude, reference=1.0):
    if amplitude <= 0:
        return -float('inf')
    return 20 * np.log10(amplitude / reference)

def get_noise_level(data):
    if data.ndim > 1:
        data = np.mean(data, axis=1)
    rms = np.sqrt(np.mean(data**2))
    db = amplitude_to_db(rms)
    return db
```
The block is modelled as the (already mono) list of samples.  For a
*nonempty* block, `rms = sqrt(mean(data**2))` is a nonnegative float, and
`rms <= 0` holds exactly when the mean of squares is `0`; the finite result
`20 * log10(sqrt(msq))` is represented by the constructor `FDb.fin msq`
carrying the mean of squares it is computed from (the transcendental steps
are injective and monotone, so no information relevant to the claims is
lost).  For an *empty* block, `np.mean([])` is NaN (numpy emits a
`RuntimeWarning`, not an exception), `np.sqrt(NaN)` is NaN, the guard
`NaN <= 0` evaluates to `False`, and `20 * np.log10(NaN)` is NaN — the
function returns NaN without raising. -/

/-- The float value produced by `get_noise_level`: NaN, −∞, or the finite
value `20 * log10(sqrt(msq))` represented by its mean-of-squares argument. -/
inductive FDb
  | nan
  | neginf
  | fin (msq : ℚ)
deriving DecidableEq, Repr

/-- `get_noise_level` on a mono block, by the float semantics traced above. -/
def get_noise_level (data : List ℚ) : FDb :=
  if data = [] then FDb.nan
  else
    let msq : ℚ := (data.map fun x => x ^ 2).sum / data.length
    if msq ≤ 0 then FDb.neginf else FDb.fin msq

/-- C8: the CLI level computation never raises (it is a total function, as
traced in the section comment: numpy only warns on the empty mean), and an
all-silent nonempty block is normalized to the silent reading −∞; but the
empty block (zero samples) is *not* normalized to a silent reading: NaN
slips through the `amplitude <= 0` guard (`NaN <= 0` is `False`) and the
function returns NaN, which the claim (and the specification) forbid. -/
theorem c8_empty_block_nan :
    get_noise_level [] = FDb.nan
    ∧ FDb.nan ≠ FDb.neginf
    ∧ (∀ q : ℚ, FDb.nan ≠ FDb.fin q)
    ∧ get_noise_level [0, 0] = FDb.neginf := by
  refine ⟨rfl, by decide, ?_, ?_⟩
  · intro q h
    cases h
  · norm_num [get_noise_level]
    intro h
    simp at h

/-! ## Temporary-file cleanup (`noise_monitor_gui.py`, `send_alert`;
`noise_monitor.py`, `send_telegram_alert`)

GUI `send_alert`:
```python
try:
    sf.write(wav_path, recording, SAMPLE_RATE)
    data, samplerate = sf.read(wav_path)
    sf.write(ogg_path, data, samplerate)
    if token and chat_id:
        requests.post(...sendMessage...)
        with open(ogg_path, 'rb') as audio:
            requests.post(...sendAudio...)
    os.remove(wav_path)
    os.remove(ogg_path)
except Exception as e:
    logger.error(...)
```
Both files exist before any network call; the `os.remove` lines are inside
the `try`, *after* the posts, so a raising post jumps to `except` and leaves
both files on disk.  CLI `send_telegram_alert` removes the two files only
inside the `if response.status_code == 200` branch of the audio upload: a
non-2xx audio response leaks both files even without an exception. -/

/-- The two temporary artifacts of one alert. -/
inductive TmpFile
  | wav
  | ogg
deriving DecidableEq, Repr

/-- Files left on disk after GUI `send_alert` returns, as a function of
whether credentials are configured and whether each post raises. -/
def send_alert_remaining (hasCreds msgRaises audioRaises : Bool) : List TmpFile :=
  if hasCreds then
    if msgRaises then [TmpFile.wav, TmpFile.ogg]
    else if audioRaises then [TmpFile.wav, TmpFile.ogg]
    else []
  else []

/-- Files left on disk after CLI `send_telegram_alert` (with an audio path)
returns without raising, as a function of the audio upload's HTTP status. -/
def send_telegram_alert_remaining (audioStatus200 : Bool) : List TmpFile :=
  if audioStatus200 then [] else [TmpFile.wav, TmpFile.ogg]

/-- C6 counterexample: when the audio post raises in the GUI, or merely
returns a non-2xx status in the CLI, both the lossless WAV and the transcoded
OGG are left on disk — the files are leaked on the failure path, refuting
"never leaked when dispatch fails". -/
theorem c6_counterexample :
    send_alert_remaining true false true = [TmpFile.wav, TmpFile.ogg]
    ∧ send_telegram_alert_remaining false = [TmpFile.wav, TmpFile.ogg]
    ∧ ([TmpFile.wav, TmpFile.ogg] : List TmpFile) ≠ [] := by
  refine ⟨rfl, rfl, by decide⟩

/-- C6 amended: both temporary files are deleted only on the *success* path —
after dispatch completes, so they are indeed never deleted before dispatch
and a successful dispatch leaves no residual files (also when credentials are
missing and the posts are skipped); but on the failure path (a raising post
in the GUI, or a non-2xx audio response in the CLI) both files are leaked. -/
theorem c6_cleanup_success_only :
    (∀ hasCreds : Bool, send_alert_remaining hasCreds false false = [])
    ∧ send_telegram_alert_remaining true = []
    ∧ (∀ audioRaises : Bool,
        send_alert_remaining true true audioRaises = [TmpFile.wav, TmpFile.ogg])
    ∧ send_alert_remaining true false true = [TmpFile.wav, TmpFile.ogg] := by
  refine ⟨fun c => by cases c <;> rfl, rfl, fun a => by cases a <;> rfl, rfl⟩

/-! ## Periodic tick (`noise_monitor_gui.py`, `update_noise_level`)

```python
def update_noise_level(self) -> None:
    if not self.is_monitoring or self.device_id is None:
        return
    if self.recording_thread is None or not self.recording_thread.is_alive():
        self.recording_thread = threading.Thread(target=self.record_audio)
        self.recording_thread.start()
```
All level measurement happens inside `record_audio`, i.e. inside the started
thread; a tick that starts no thread measures nothing. -/

/-- What one timer tick does. -/
inductive TickAction
  | skip
  | startTask
deriving DecidableEq, Repr

/-- The body of `update_noise_level`; `threadAlive` is
"`recording_thread` is not `None` and is alive". -/
def update_noise_level (is_monitoring : Bool) (device_id : Option ℕ)
    (threadAlive : Bool) : TickAction :=
  if is_monitoring = false ∨ device_id = none then TickAction.skip
  else if threadAlive then TickAction.skip
  else TickAction.startTask

/-- A tick performs a level measurement exactly when it starts the
`record_audio` task (which is where the measurement code lives). -/
def tick_measures (a : TickAction) : Bool :=
  decide (a = TickAction.startTask)

/-- C9 counterexample: with monitoring enabled and a device selected, a tick
that fires while the previous recording thread is still alive does nothing at
all: it starts no task and therefore performs no level measurement — refuting
the claim that such a tick "still performs the level measurement". -/
theorem c9_counterexample :
    update_noise_level true (some 0) true = TickAction.skip
    ∧ tick_measures TickAction.skip = false
    ∧ ¬ tick_measures (update_noise_level true (some 0) true) = true := by
  refine ⟨rfl, rfl, by decide⟩

/-- C9 amended: whenever the background recording thread is still alive at a
tick, the tick is skipped *entirely*: it starts no second concurrent task
(this at-most-one-in-flight half of the claim holds), and it also performs no
level measurement (the displayed level is simply not refreshed until the
running task finishes). -/
theorem c9_tick_skipped_entirely :
    ∀ (is_monitoring : Bool) (device_id : Option ℕ) (threadAlive : Bool),
      threadAlive = true →
      update_noise_level is_monitoring device_id threadAlive = TickAction.skip
      ∧ tick_measures (update_noise_level is_monitoring device_id threadAlive)
          = false := by
  intro mon dev alive halive
  subst halive
  by_cases h : mon = false ∨ dev = none
  · rw [update_noise_level, if_pos h]
    exact ⟨rfl, rfl⟩
  · rw [update_noise_level, if_neg h, if_pos rfl]
    exact ⟨rfl, rfl⟩

/-- Witness for `c9_tick_skipped_entirely` with monitoring on, device 0, and
a live thread. -/
theorem c9_tick_skipped_entirely_witness :
    update_noise_level true (some 0) true = TickAction.skip
    ∧ tick_measures (update_noise_level true (some 0) true) = false :=
  c9_tick_skipped_entirely true (some 0) true rfl

end NoiseMonitor
